import Mathlib

/-!
Verification development for the flow-duration-curve core of the
`tethysapp-awra_demo` repository.

The algorithmic core is the function `fdc` in
`tethysapp/awra_demo/controllers.py` (lines 99-151).  It receives a
pandas DataFrame whose index is a sequence of calendar dates and whose
columns are site identifiers holding (possibly missing) rational
discharge values.  The pipeline is:

1. `df = df[[site]]` — select the single site column (KeyError when absent);
2. filter rows to dates strictly inside `(begyear-01-01, endyear-01-01)`;
3. `dropna` — drop missing values;
4. group by `dayofyear` and take the arithmetic mean of each group
   (pandas `groupby` enumerates group keys in ascending order);
5. `np.sort` — sort the aggregated means ascending;
6. divide every value by `normalizer`;
7. `scipy.stats.rankdata(·, method='average')` — ascending ranks with
   average rank for ties;
8. reverse the rank sequence;
9. `prob[i] = ranks[i] / (len(data) + 1)`;
10. return `(prob, data)`.

Numeric cells are embedded as rationals (`ℚ`), dates as explicit
year/month/day triples ordered lexicographically (the index carries
daily-granularity dates, per the data model), and the missing-column
failure as an `Except` error.  Every pandas operation used by `fdc`
(`df[[site]]`, boolean-mask indexing, `dropna`) returns a fresh frame,
and the two in-place writes (`df.index = ...`, `data['doy'] = ...`)
target those local copies, so `fdc` is embedded as a pure function of
its input table; `fdcSt` threads the caller's table explicitly to state
the frame property.
-/

set_option maxRecDepth 100000

/-- A calendar date at daily granularity, as carried by the DataFrame index. -/
structure Date where
  year : Nat
  month : Nat
  day : Nat
deriving DecidableEq, Repr

/-- Strict ordering of dates, as produced by comparing the parsed
datetime index against `dt.datetime(year, 1, 1)` bounds: lexicographic
on (year, month, day). -/
def Date.before (a b : Date) : Bool :=
  a.year < b.year ||
    (a.year == b.year &&
      (a.month < b.month || (a.month == b.month && a.day < b.day)))

/-- January 1 of the given year, the boundary `dt.datetime(y, 1, 1)`. -/
def jan1 (y : Nat) : Date := ⟨y, 1, 1⟩

/-- Gregorian leap-year rule used by the calendar library. -/
def isLeap (y : Nat) : Bool :=
  (y % 4 == 0 && y % 100 != 0) || y % 400 == 0

/-- Number of days of a month in a given year. -/
def daysInMonth (y m : Nat) : Nat :=
  if m == 2 then (if isLeap y then 29 else 28)
  else if m == 4 || m == 6 || m == 9 || m == 11 then 30
  else 31

/-- Day-of-year of a date (1 to 366, leap-year aware), the pandas
`DatetimeIndex.dayofyear` accessor. -/
def dayOfYear (d : Date) : Nat :=
  (((List.range (d.month - 1)).map (fun m => daysInMonth d.year (m + 1))).sum) + d.day

/-- The tabular time series handed to `fdc`: a date-valued row index and
one column of optional (possibly-NA) discharge values per site.  Each
row stores its cells aligned with `columns`. -/
structure Table where
  columns : List String
  rows : List (Date × List (Option ℚ))
deriving DecidableEq

/-- Column selection `df[[site]]`: locate the site among the columns and
project every row onto that single column.  `none` is the KeyError case.
An out-of-range or missing cell reads as NA. -/
def getColumn (t : Table) (site : String) : Option (List (Date × Option ℚ)) :=
  (t.columns.findIdx? (fun c => c == site)).map
    (fun i => t.rows.map (fun r => (r.1, (r.2[i]?).join)))

/-- Date-window filter of line 125 of `controllers.py`:
`df[(dt_index > dt.datetime(begyear,1,1)) & (dt_index < dt.datetime(endyear,1,1))]`. -/
def filterWindow (begyear endyear : Nat) (col : List (Date × Option ℚ)) :
    List (Date × Option ℚ) :=
  col.filter (fun r => (jan1 begyear).before r.1 && r.1.before (jan1 endyear))

/-- The `data.dropna()` step: keep exactly the rows whose cell is present. -/
def dropna (col : List (Date × Option ℚ)) : List (Date × ℚ) :=
  col.filterMap (fun r => r.2.map (fun v => (r.1, v)))

/-- Per-day-of-year means, `data[site].groupby(data['doy']).mean()`:
the day-of-year of every remaining row is computed once, and for every
possible group key 1..366 (in ascending order, as pandas `groupby`
enumerates its keys) the arithmetic mean of the group is emitted when
the group is non-empty. -/
def dailyAverages (data : List (Date × ℚ)) : List ℚ :=
  let doyData := data.map (fun r => (dayOfYear r.1, r.2))
  (List.range 366).filterMap (fun k =>
    let g := doyData.filter (fun r => r.1 == k + 1)
    if g.length = 0 then none
    else some ((g.map Prod.snd).sum / (g.length : ℚ)))

/-- The semantics of `scipy.stats.rankdata(data, method='average')`:
element `v` receives the mean of the ascending 1-based rank positions it
would occupy, which is `#{w | w < v} + (#{w | w = v} + 1) / 2`. -/
def rankdata (l : List ℚ) : List ℚ :=
  l.map (fun v =>
    ((l.filter (fun w => w < v)).length : ℚ) +
      (((l.filter (fun w => w == v)).length : ℚ) + 1) / 2)

/-- The error raised by `fdc`: `df[[site]]` raises `KeyError` when the
requested site is not a column. -/
inductive FdcError where
  | missingSite (site : String)
deriving DecidableEq

instance {ε : Type u} {α : Type v} [DecidableEq ε] [DecidableEq α] :
    DecidableEq (Except ε α) := fun x y =>
  match x, y with
  | .ok a, .ok b =>
    if h : a = b then .isTrue (congrArg Except.ok h)
    else .isFalse (fun he => h (by injection he))
  | .error a, .error b =>
    if h : a = b then .isTrue (congrArg Except.error h)
    else .isFalse (fun he => h (by injection he))
  | .ok _, .error _ => .isFalse (fun he => Except.noConfusion he)
  | .error _, .ok _ => .isFalse (fun he => Except.noConfusion he)

/-- The flow-duration-curve routine `fdc(df, site, begyear, endyear,
normalizer)` of `controllers.py` lines 99-151, returning
`(prob, discharge)`.  `np.sort` is embedded as insertion sort: over a
linear order the ascending sorted permutation of a list is unique, so
any correct sort denotes the same function.  The division by
`normalizer` is unguarded, exactly as in the source. -/
def fdc (df : Table) (site : String) (begyear endyear : Nat) (normalizer : ℚ) :
    Except FdcError (List ℚ × List ℚ) :=
  match getColumn df site with
  | none => .error (.missingSite site)
  | some col =>
    let data := filterWindow begyear endyear col
    let data := dropna data
    let dailyavg := dailyAverages data
    let sorted := List.insertionSort (· ≤ ·) dailyavg
    let normed := sorted.map (fun v => v / normalizer)
    let ranks := rankdata normed
    let ranksRev := ranks.reverse
    let prob := ranksRev.map (fun r => r / ((normed.length : ℚ) + 1))
    .ok (prob, normed)

/-- State-passing view of `fdc`: the caller's table is threaded through
the call.  Every frame consumed inside the source (`df[[site]]`, the
boolean-mask filter, `dropna`) is a fresh copy, and the in-place writes
(`df.index = dt_index`, `data['doy'] = ...`) mutate only those local
copies, so the caller's table comes back unchanged. -/
def fdcSt (st : Table) (site : String) (begyear endyear : Nat) (normalizer : ℚ) :
    Except FdcError (List ℚ × List ℚ) × Table :=
  (fdc st site begyear endyear normalizer, st)

/-- The plot-request orchestration `AwraMapLayout.get_plot_for_layer_feature`
(lines 61-96): three sequential `fdc` calls over the same loaded table
with windows (1900, 2020), (1900, 1970), (1970, 2020) and the default
normalizer 1. -/
def get_plot_for_layer_feature (tbl : Table) (site_no : String) :
    (Except FdcError (List ℚ × List ℚ) ×
      Except FdcError (List ℚ × List ℚ) ×
      Except FdcError (List ℚ × List ℚ)) × Table :=
  let r1 := fdcSt tbl site_no 1900 2020 1
  let r2 := fdcSt r1.2 site_no 1900 1970 1
  let r3 := fdcSt r2.2 site_no 1970 2020 1
  ((r1.1, r2.1, r3.1), r3.2)

/-- All dates of a year in calendar order. -/
def daysOfYear (y : Nat) : List Date :=
  (List.range 12).flatMap
    (fun m => (List.range (daysInMonth y (m + 1))).map (fun d => ⟨y, m + 1, d + 1⟩))

/-- Discharge of the spec's concrete scenario: 10 on day-of-year 1,
otherwise 5. -/
def site1Value (d : Date) : ℚ := if dayOfYear d = 1 then 10 else 5

/-- The concrete scenario table: column "SITE1", daily values for the
years 1969-1971, discharge 10 on day-of-year 1 and 5 elsewhere. -/
def ctable : Table :=
  { columns := ["SITE1"],
    rows := ([1969, 1970, 1971].flatMap daysOfYear).map
      (fun d => (d, [some (site1Value d)])) }

/-- A small two-row table used as concrete input for witnesses and
counterexamples: one column "S", dates Jan 1 and Jan 2 of 1969 with
discharges 10 and 20. -/
def t2 : Table :=
  { columns := ["S"],
    rows := [(⟨1969, 1, 1⟩, [some 10]), (⟨1969, 1, 2⟩, [some 20])] }

/-- The table `t2` with its two rows swapped. -/
def t2swap : Table :=
  { columns := ["S"],
    rows := [(⟨1969, 1, 2⟩, [some 20]), (⟨1969, 1, 1⟩, [some 10])] }

/-! ## Helper lemmas -/

/-- Concatenation of `c` copies of a list, used to describe the day-of-year
profile of a multi-year window. -/
def copies : Nat → List α → List α
  | 0, _ => []
  | c + 1, l => l ++ copies c l

theorem copies_nil (c : Nat) : copies c ([] : List α) = [] := by
  induction c with
  | zero => rfl
  | succ c ih => simp [copies, ih]

theorem copies_singleton (c : Nat) (a : α) : copies c [a] = List.replicate c a := by
  induction c with
  | zero => rfl
  | succ c ih => simp [copies, ih, List.replicate_succ]

theorem filter_copies (p : α → Bool) (c : Nat) (l : List α) :
    (copies c l).filter p = copies c (l.filter p) := by
  induction c with
  | zero => rfl
  | succ c ih => simp [copies, List.filter_append, ih]

theorem filter_key_range' (g : Nat → ℚ) (j s n : Nat) :
    (((List.range' s n).map (fun k => (k, g k))).filter (fun r => r.1 == j)) =
      if s ≤ j ∧ j < s + n then [(j, g j)] else [] := by
  induction n generalizing s with
  | zero => simp
  | succ n ih =>
    rw [List.range'_succ, List.map_cons, List.filter_cons]
    by_cases h : s = j
    · subst h
      have h2 : ¬ (s + 1 ≤ s ∧ s < s + 1 + n) := by omega
      simp [ih, h2]
    · have hb : ((s, g s).1 == j) = false := by simp [h]
      rw [hb, if_neg (by simp), ih]
      by_cases h3 : s + 1 ≤ j ∧ j < s + 1 + n
      · rw [if_pos h3, if_pos (by omega)]
      · rw [if_neg h3, if_neg (by omega)]

theorem filterMap_some_map (g : α → β) (l : List α) :
    l.filterMap (fun a => some (g a)) = l.map g := by
  induction l with
  | nil => rfl
  | cons a l ih => simp [List.filterMap_cons, ih]

/-- Evaluation of the groupby-mean step on a window whose day-of-year
profile is `c` identical copies of the block `(1, f 1), ..., (n, f n)`. -/
theorem dailyAverages_of_blocks (data : List (Date × ℚ)) (f : Nat → ℚ) (n c : Nat)
    (hc : c ≠ 0) (hn : n ≤ 366)
    (h : data.map (fun r => (dayOfYear r.1, r.2)) =
      copies c ((List.range' 1 n).map (fun k => (k, f k)))) :
    dailyAverages data = (List.range n).map (fun k => f (k + 1)) := by
  have hcq : ((c : ℚ)) ≠ 0 := Nat.cast_ne_zero.mpr hc
  simp only [dailyAverages, h, filter_copies]
  have hstep : ∀ k, k ∈ List.range 366 →
      (if ((copies c (((List.range' 1 n).map (fun j => (j, f j))).filter
            (fun r => r.1 == k + 1))).length = 0) then none
        else some (((copies c (((List.range' 1 n).map (fun j => (j, f j))).filter
            (fun r => r.1 == k + 1))).map Prod.snd).sum /
          ((copies c (((List.range' 1 n).map (fun j => (j, f j))).filter
            (fun r => r.1 == k + 1))).length : ℚ))) =
      (if k + 1 ≤ n then some (f (k + 1)) else none) := by
    intro k _
    rw [filter_key_range']
    by_cases hk : k + 1 ≤ n
    · rw [if_pos (show 1 ≤ k + 1 ∧ k + 1 < 1 + n by omega), copies_singleton,
        if_neg (by simp [hc]), if_pos hk]
      congr 1
      rw [List.map_replicate, List.sum_replicate, List.length_replicate]
      rw [nsmul_eq_mul]
      exact mul_div_cancel_left₀ _ hcq
    · rw [if_neg (show ¬ (1 ≤ k + 1 ∧ k + 1 < 1 + n) by omega), copies_nil]
      simp [hk]
  rw [List.filterMap_congr hstep]
  obtain ⟨m, hm⟩ : ∃ m, n + m = 366 := ⟨366 - n, by omega⟩
  have happ := List.range'_append 0 n m 1
  have hsplit : List.range 366 = List.range' 0 n ++ List.range' n m := by
    rw [List.range_eq_range', ← hm, Nat.add_comm n m, ← happ]
    norm_num
  rw [hsplit, List.filterMap_append]
  have h1 : (List.range' 0 n).filterMap (fun k => if k + 1 ≤ n then some (f (k + 1)) else none) =
      (List.range' 0 n).map (fun k => f (k + 1)) := by
    have hcongr : (List.range' 0 n).filterMap
        (fun k => if k + 1 ≤ n then some (f (k + 1)) else none) =
        (List.range' 0 n).filterMap (fun k => some (f (k + 1))) := by
      apply List.filterMap_congr
      intro k hk
      obtain ⟨i, hi, rfl⟩ := List.mem_range'.mp hk
      rw [if_pos (by omega)]
    rw [hcongr, filterMap_some_map]
  have h2 : (List.range' n m).filterMap
      (fun k => if k + 1 ≤ n then some (f (k + 1)) else none) = [] := by
    rw [List.filterMap_eq_nil_iff]
    intro k hk
    obtain ⟨i, hi, rfl⟩ := List.mem_range'.mp hk
    rw [if_neg (by omega)]
  rw [h1, h2, List.append_nil, List.range_eq_range']

theorem map_div_one (l : List ℚ) : l.map (fun v => v / (1:ℚ)) = l := by
  simp

theorem dropna_map_some (l : List Date) (v : Date → ℚ) :
    dropna (l.map (fun d => (d, some (v d)))) = l.map (fun d => (d, v d)) := by
  induction l with
  | nil => rfl
  | cons d l ih =>
    simp only [dropna] at ih
    simp [dropna, List.filterMap_cons, ih]

/-! ## Concrete evaluation of the spec scenario table -/

theorem ctable_blocks :
    (([1969, 1970, 1971].flatMap daysOfYear).map (fun d => (d, site1Value d))).map
      (fun r => (dayOfYear r.1, r.2)) =
      copies 3 ((List.range' 1 365).map (fun k => (k, if k = 1 then (10:ℚ) else 5))) := by
  decide

theorem dailyavg_ctable :
    dailyAverages (([1969, 1970, 1971].flatMap daysOfYear).map (fun d => (d, site1Value d))) =
      (10:ℚ) :: List.replicate 364 5 := by
  rw [dailyAverages_of_blocks _ (fun k => if k = 1 then (10:ℚ) else 5) 365 3
    (by norm_num) (by norm_num) ctable_blocks]
  decide

theorem getColumn_ctable : getColumn ctable "SITE1" =
    some (([1969, 1970, 1971].flatMap daysOfYear).map (fun d => (d, some (site1Value d)))) := by
  decide

theorem filterWindow_ctable :
    filterWindow 1900 2020
      (([1969, 1970, 1971].flatMap daysOfYear).map (fun d => (d, some (site1Value d)))) =
      ([1969, 1970, 1971].flatMap daysOfYear).map (fun d => (d, some (site1Value d))) := by
  decide

theorem sort_ctable : List.insertionSort (· ≤ ·) ((10:ℚ) :: List.replicate 364 5) =
    List.replicate 364 5 ++ [10] := by
  decide

theorem rankdata_ctable : rankdata (List.replicate 364 (5:ℚ) ++ [10]) =
    List.replicate 364 ((365:ℚ)/2) ++ [(365:ℚ)] := by
  unfold rankdata
  rw [List.map_append, List.map_replicate, List.map_singleton]
  have h1 : ((List.replicate 364 (5:ℚ) ++ [10]).filter (fun w => w < 5)).length = 0 := by decide
  have h2 : ((List.replicate 364 (5:ℚ) ++ [10]).filter (fun w => w == 5)).length = 364 := by decide
  have h3 : ((List.replicate 364 (5:ℚ) ++ [10]).filter (fun w => w < 10)).length = 364 := by decide
  have h4 : ((List.replicate 364 (5:ℚ) ++ [10]).filter (fun w => w == 10)).length = 1 := by decide
  rw [h1, h2, h3, h4]
  norm_num

/-- Full evaluation of `fdc` on the spec's concrete scenario: the call
returns 365 aggregated points, not 2. -/
theorem fdc_ctable_eval : fdc ctable "SITE1" 1900 2020 1 =
    .ok ((365:ℚ)/366 :: List.replicate 364 ((365:ℚ)/732),
      List.replicate 364 (5:ℚ) ++ [10]) := by
  simp only [fdc, getColumn_ctable]
  rw [filterWindow_ctable, dropna_map_some, dailyavg_ctable, sort_ctable, map_div_one,
    rankdata_ctable]
  simp only [List.reverse_append, List.reverse_replicate, List.reverse_cons, List.reverse_nil,
    List.nil_append, List.singleton_append, List.length_append, List.length_replicate,
    List.length_cons, List.length_nil, List.map_cons, List.map_replicate]
  norm_num

/-! ## Concrete evaluation of the two-row table -/

theorem getColumn_t2 : getColumn t2 "S" =
    some [(⟨1969, 1, 1⟩, some (10:ℚ)), (⟨1969, 1, 2⟩, some 20)] := by
  decide

theorem filterWindow_t2 :
    filterWindow 1900 2020 [(⟨1969, 1, 1⟩, some (10:ℚ)), (⟨1969, 1, 2⟩, some 20)] =
      [(⟨1969, 1, 1⟩, some (10:ℚ)), (⟨1969, 1, 2⟩, some 20)] := by
  decide

theorem dropna_t2 : dropna [(⟨1969, 1, 1⟩, some (10:ℚ)), (⟨1969, 1, 2⟩, some 20)] =
    [(⟨1969, 1, 1⟩, (10:ℚ)), (⟨1969, 1, 2⟩, 20)] := by
  decide

theorem t2_blocks : ([(⟨1969, 1, 1⟩, (10:ℚ)), (⟨1969, 1, 2⟩, 20)]).map
    (fun r => (dayOfYear r.1, r.2)) =
    copies 1 ((List.range' 1 2).map (fun k => (k, if k = 1 then (10:ℚ) else 20))) := by
  decide

theorem dailyavg_t2 : dailyAverages [(⟨1969, 1, 1⟩, (10:ℚ)), (⟨1969, 1, 2⟩, 20)] =
    [10, 20] := by
  rw [dailyAverages_of_blocks _ (fun k => if k = 1 then (10:ℚ) else 20) 2 1
    one_ne_zero (by norm_num) t2_blocks]
  decide

theorem sort_t2 : List.insertionSort (· ≤ ·) [(10:ℚ), 20] = [10, 20] := by decide

theorem rankdata_t2 : rankdata [(10:ℚ), 20] = [1, 2] := by
  unfold rankdata
  simp only [List.map_cons, List.map_nil]
  have h1 : ([(10:ℚ), 20].filter (fun w => w < 10)).length = 0 := by decide
  have h2 : ([(10:ℚ), 20].filter (fun w => w == 10)).length = 1 := by decide
  have h3 : ([(10:ℚ), 20].filter (fun w => w < 20)).length = 1 := by decide
  have h4 : ([(10:ℚ), 20].filter (fun w => w == 20)).length = 1 := by decide
  rw [h1, h2, h3, h4]
  norm_num

theorem rankdata_t2neg : rankdata [(-10:ℚ), -20] = [2, 1] := by
  unfold rankdata
  simp only [List.map_cons, List.map_nil]
  have h1 : ([(-10:ℚ), -20].filter (fun w => w < -10)).length = 1 := by decide
  have h2 : ([(-10:ℚ), -20].filter (fun w => w == -10)).length = 1 := by decide
  have h3 : ([(-10:ℚ), -20].filter (fun w => w < -20)).length = 0 := by decide
  have h4 : ([(-10:ℚ), -20].filter (fun w => w == -20)).length = 1 := by decide
  rw [h1, h2, h3, h4]
  norm_num

theorem rankdata_t2half : rankdata [(5:ℚ), 10] = [1, 2] := by
  unfold rankdata
  simp only [List.map_cons, List.map_nil]
  have h1 : ([(5:ℚ), 10].filter (fun w => w < 5)).length = 0 := by decide
  have h2 : ([(5:ℚ), 10].filter (fun w => w == 5)).length = 1 := by decide
  have h3 : ([(5:ℚ), 10].filter (fun w => w < 10)).length = 1 := by decide
  have h4 : ([(5:ℚ), 10].filter (fun w => w == 10)).length = 1 := by decide
  rw [h1, h2, h3, h4]
  norm_num

theorem fdc_t2_eval : fdc t2 "S" 1900 2020 1 = .ok ([(2:ℚ)/3, 1/3], [(10:ℚ), 20]) := by
  simp only [fdc, getColumn_t2]
  rw [filterWindow_t2, dropna_t2, dailyavg_t2, sort_t2, map_div_one, rankdata_t2]
  simp only [List.reverse_cons, List.reverse_nil, List.nil_append, List.singleton_append,
    List.length_cons, List.length_nil, List.map_cons, List.map_nil]
  norm_num

theorem fdc_t2_neg_eval : fdc t2 "S" 1900 2020 (-1) =
    .ok ([(1:ℚ)/3, 2/3], [(-10:ℚ), -20]) := by
  simp only [fdc, getColumn_t2]
  rw [filterWindow_t2, dropna_t2, dailyavg_t2, sort_t2]
  have hmap : [(10:ℚ), 20].map (fun v => v / (-1:ℚ)) = [-10, -20] := by norm_num
  rw [hmap, rankdata_t2neg]
  simp only [List.reverse_cons, List.reverse_nil, List.nil_append, List.singleton_append,
    List.length_cons, List.length_nil, List.map_cons, List.map_nil]
  norm_num

theorem fdc_t2_k2_eval : fdc t2 "S" 1900 2020 2 = .ok ([(2:ℚ)/3, 1/3], [(5:ℚ), 10]) := by
  simp only [fdc, getColumn_t2]
  rw [filterWindow_t2, dropna_t2, dailyavg_t2, sort_t2]
  have hmap : [(10:ℚ), 20].map (fun v => v / (2:ℚ)) = [5, 10] := by norm_num
  rw [hmap, rankdata_t2half]
  simp only [List.reverse_cons, List.reverse_nil, List.nil_append, List.singleton_append,
    List.length_cons, List.length_nil, List.map_cons, List.map_nil]
  norm_num

theorem fdc_t2_empty_eval : fdc t2 "S" 1980 1990 1 = .ok ([], []) := by decide

/-! ## Column lookup -/

theorem getColumn_isSome_iff (t : Table) (site : String) :
    (getColumn t site).isSome = true ↔ site ∈ t.columns := by
  have hmap : (getColumn t site).isSome =
      (t.columns.findIdx? (fun c => c == site)).isSome := by
    rw [getColumn]
    cases t.columns.findIdx? (fun c => c == site) <;> rfl
  rw [hmap, List.findIdx?_isSome, List.any_eq_true]
  constructor
  · rintro ⟨c, hc, hcs⟩
    rw [show c = site from by simpa using hcs] at hc
    exact hc
  · intro hs
    exact ⟨site, hs, by simp⟩

theorem length_filter_add_length_filter_le (l : List ℚ) (p q : ℚ → Bool)
    (hpq : ∀ a, ¬(p a = true ∧ q a = true)) :
    (l.filter p).length + (l.filter q).length ≤ l.length := by
  induction l with
  | nil => simp
  | cons a l ih =>
    rw [List.filter_cons, List.filter_cons]
    by_cases hp : p a = true
    · have hq : ¬ q a = true := fun h => hpq a ⟨hp, h⟩
      rw [if_pos hp, if_neg hq]
      simp only [List.length_cons]
      omega
    · rw [if_neg hp]
      by_cases hq : q a = true
      · rw [if_pos hq]
        simp only [List.length_cons]
        omega
      · rw [if_neg hq]
        simp only [List.length_cons]
        omega

theorem dailyAverages_perm (l l2 : List (Date × ℚ)) (hp : l.Perm l2) :
    dailyAverages l = dailyAverages l2 := by
  simp only [dailyAverages]
  apply List.filterMap_congr
  intro k _
  have hperm : ((l.map (fun r => (dayOfYear r.1, r.2))).filter (fun r => r.1 == k + 1)).Perm
      ((l2.map (fun r => (dayOfYear r.1, r.2))).filter (fun r => r.1 == k + 1)) :=
    (hp.map _).filter _
  have hlen := hperm.length_eq
  have hsum := (hperm.map Prod.snd).sum_eq
  rw [hlen, hsum]

/-! ## The claims -/

/-- C1: for every call that returns, the probability and discharge
sequences are parallel (equal length); and on the spec's concrete
scenario table (daily values 1969-1971, 10 on day-of-year 1, else 5) the
call `fdc ctable "SITE1" 1900 2020 1` returns the 365 per-day-of-year
means sorted ascending, `[5, ..., 5, 10]`, with reversed-average-rank
probabilities `365/366` followed by 364 copies of `365/732`. -/
theorem fdc_parallel_lengths_and_scenario :
    (∀ df site b e n p d, fdc df site b e n = .ok (p, d) → p.length = d.length) ∧
    fdc ctable "SITE1" 1900 2020 1 =
      .ok ((365:ℚ)/366 :: List.replicate 364 ((365:ℚ)/732),
        List.replicate 364 (5:ℚ) ++ [10]) := by
  constructor
  · intro df site b e n p d h
    rcases hg : getColumn df site with _ | col
    · simp only [fdc, hg] at h
      exact Except.noConfusion h
    · simp only [fdc, hg, Except.ok.injEq, Prod.mk.injEq] at h
      obtain ⟨hp, hd⟩ := h
      subst hp
      subst hd
      simp [rankdata]
  · exact fdc_ctable_eval

/-- C1 witness: the two sequences returned on the concrete scenario have
equal length. -/
theorem fdc_parallel_lengths_and_scenario_witness :
    ((365:ℚ)/366 :: List.replicate 364 ((365:ℚ)/732)).length =
      (List.replicate 364 (5:ℚ) ++ [10]).length :=
  fdc_parallel_lengths_and_scenario.1 ctable "SITE1" 1900 2020 1 _ _
    fdc_parallel_lengths_and_scenario.2

/-- C1 counterexample: on the concrete scenario the claim's asserted
output — 2 aggregated points, discharges `[5, 10]`, probabilities
`[2/3, 1/3]` — is not what `fdc` returns: grouping is by day-of-year, so
365 aggregated points come back. -/
theorem fdc_scenario_two_points_false :
    fdc ctable "SITE1" 1900 2020 1 ≠ .ok ([(2:ℚ)/3, 1/3], [(5:ℚ), 10]) := by
  rw [fdc_ctable_eval]
  intro h
  simp only [Except.ok.injEq, Prod.mk.injEq] at h
  obtain ⟨-, h2⟩ := h
  have := congrArg List.length h2
  simp at this

/-- C2 (amended): a zero normalizer raises nothing: the division is
unguarded in the source, so the call succeeds exactly when the site
column exists, identical to any other normalizer. -/
theorem fdc_zero_normalizer_isOk_iff (df : Table) (site : String) (b e : Nat) :
    (fdc df site b e 0).isOk = true ↔ site ∈ df.columns := by
  rw [← getColumn_isSome_iff]
  rcases hg : getColumn df site with _ | col
  · simp [fdc, hg, Except.isOk, Except.toBool]
  · simp [fdc, hg, Except.isOk, Except.toBool]

/-- C2 counterexample: with normalizer 0 on a well-formed two-row table
the call returns normally (`isOk`), refuting that an InvalidArgument
error is raised. -/
theorem fdc_zero_normalizer_no_exception : (fdc t2 "S" 1900 2020 0).isOk = true := by
  simp only [fdc, getColumn_t2]
  rfl

/-- C3 (amended): for every positive normalizer the returned discharge
sequence is sorted ascending (the sort happens before the division, so a
negative normalizer reverses the order). -/
theorem fdc_discharge_sorted_of_pos (df : Table) (site : String) (b e : Nat) (n : ℚ)
    (hn : 0 < n) (p d : List ℚ) (h : fdc df site b e n = .ok (p, d)) :
    List.Sorted (· ≤ ·) d := by
  rcases hg : getColumn df site with _ | col
  · simp only [fdc, hg] at h
    exact Except.noConfusion h
  · simp only [fdc, hg, Except.ok.injEq, Prod.mk.injEq] at h
    obtain ⟨-, hd⟩ := h
    subst hd
    have hs := List.sorted_insertionSort (· ≤ ·)
      (dailyAverages (dropna (filterWindow b e col)))
    exact List.Pairwise.map _ (fun a c hac => (div_le_div_iff_of_pos_right hn).mpr hac) hs

/-- C3 witness: with normalizer 1 on the two-row table the discharge
sequence `[10, 20]` is sorted. -/
theorem fdc_discharge_sorted_of_pos_witness : List.Sorted (· ≤ ·) [(10:ℚ), 20] :=
  fdc_discharge_sorted_of_pos t2 "S" 1900 2020 1 one_pos _ _ fdc_t2_eval

/-- C3 counterexample: with normalizer -1 the discharge sequence comes
back as `[-10, -20]`, which is not sorted ascending. -/
theorem fdc_discharge_sorted_neg_counterexample :
    fdc t2 "S" 1900 2020 (-1) = .ok ([(1:ℚ)/3, 2/3], [(-10:ℚ), -20]) ∧
      ¬ List.Sorted (· ≤ ·) [(-10:ℚ), -20] := by
  refine ⟨fdc_t2_neg_eval, ?_⟩
  intro hs
  rw [List.sorted_cons] at hs
  obtain ⟨h1, -⟩ := hs
  have := h1 (-20) (by simp)
  norm_num at this

/-- C4: a row passes the date filter exactly when it is a row of the
column and its date lies strictly inside the open interval
(Jan 1 of begyear, Jan 1 of endyear); in particular a row dated exactly
Jan 1 of begyear is excluded, and a row dated on or after Jan 1 of
endyear is excluded. -/
theorem filterWindow_mem_iff (b e : Nat) (col : List (Date × Option ℚ))
    (r : Date × Option ℚ) :
    (r ∈ filterWindow b e col ↔
      r ∈ col ∧ (jan1 b).before r.1 = true ∧ r.1.before (jan1 e) = true) ∧
    (r.1 = jan1 b → r ∉ filterWindow b e col) ∧
    (r.1.before (jan1 e) = false → r ∉ filterWindow b e col) := by
  refine ⟨?_, ?_, ?_⟩
  · rw [filterWindow, List.mem_filter]
    simp [Bool.and_eq_true]
  · intro hr hmem
    rw [filterWindow, List.mem_filter] at hmem
    obtain ⟨-, hcond⟩ := hmem
    rw [hr] at hcond
    have hb : (jan1 b).before (jan1 b) = false := by
      simp [Date.before, jan1]
    rw [hb] at hcond
    simp at hcond
  · intro hr hmem
    rw [filterWindow, List.mem_filter] at hmem
    obtain ⟨-, hcond⟩ := hmem
    rw [hr] at hcond
    simp at hcond

/-- C4 witness: the boundary rows dated Jan 1 1900 and Jan 1 2020 are
excluded from the (1900, 2020) window. -/
theorem filterWindow_mem_iff_witness :
    (⟨1900, 1, 1⟩, (none : Option ℚ)) ∉
      filterWindow 1900 2020 [(⟨1900, 1, 1⟩, (none : Option ℚ))] ∧
    (⟨2020, 1, 1⟩, (none : Option ℚ)) ∉
      filterWindow 1900 2020 [(⟨2020, 1, 1⟩, (none : Option ℚ))] :=
  ⟨(filterWindow_mem_iff 1900 2020 _ _).2.1 rfl,
    (filterWindow_mem_iff 1900 2020 _ _).2.2 (by decide)⟩

/-- C5: when the window plus NA removal leaves zero qualifying rows, the
call returns two empty sequences rather than an error. -/
theorem fdc_empty_window (df : Table) (site : String) (b e : Nat) (n : ℚ)
    (col : List (Date × Option ℚ)) (hg : getColumn df site = some col)
    (hempty : dropna (filterWindow b e col) = []) :
    fdc df site b e n = .ok ([], []) := by
  simp only [fdc, hg, hempty]
  have hda : dailyAverages [] = [] := by
    simp [dailyAverages]
  rw [hda]
  simp [rankdata, List.insertionSort]

/-- C5 witness: the two-row table holds only 1969 data, so the window
(1980, 1990) returns two empty sequences. -/
theorem fdc_empty_window_witness : fdc t2 "S" 1980 1990 1 = .ok ([], []) :=
  fdc_empty_window t2 "S" 1980 1990 1 _ getColumn_t2 (by decide)

/-- C6: the call fails with the missing-site (KeyError-class) error
exactly when the requested site is not one of the table's columns. -/
theorem fdc_missing_site_iff (df : Table) (site : String) (b e : Nat) (n : ℚ) :
    fdc df site b e n = .error (.missingSite site) ↔ site ∉ df.columns := by
  rw [← getColumn_isSome_iff]
  rcases hg : getColumn df site with _ | col
  · simp [fdc, hg]
  · simp [fdc, hg]

/-- C7: for every non-zero k, the discharge sequence with normalizer k
is the normalizer-1 discharge sequence divided elementwise by k. -/
theorem fdc_normalizer_scaling (df : Table) (site : String) (b e : Nat) (k : ℚ)
    (hk : k ≠ 0) (p d q dk : List ℚ)
    (h1 : fdc df site b e 1 = .ok (p, d)) (h2 : fdc df site b e k = .ok (q, dk)) :
    dk = d.map (fun v => v / k) := by
  rcases hg : getColumn df site with _ | col
  · simp only [fdc, hg] at h1
    exact Except.noConfusion h1
  · simp only [fdc, hg, Except.ok.injEq, Prod.mk.injEq] at h1 h2
    obtain ⟨-, hd⟩ := h1
    obtain ⟨-, hdk⟩ := h2
    subst hd
    subst hdk
    rw [List.map_map]
    simp [Function.comp, div_one]

/-- C7 witness: on the two-row table, the normalizer-2 discharges
`[5, 10]` equal the normalizer-1 discharges `[10, 20]` divided by 2. -/
theorem fdc_normalizer_scaling_witness :
    [(5:ℚ), 10] = [(10:ℚ), 20].map (fun v => v / 2) :=
  fdc_normalizer_scaling t2 "S" 1900 2020 2 two_ne_zero _ _ _ _
    fdc_t2_eval fdc_t2_k2_eval

/-- C8: every returned probability lies strictly between 0 and 1. -/
theorem fdc_prob_in_unit_interval (df : Table) (site : String) (b e : Nat) (n : ℚ)
    (p d : List ℚ) (h : fdc df site b e n = .ok (p, d)) :
    ∀ x ∈ p, 0 < x ∧ x < 1 := by
  rcases hg : getColumn df site with _ | col
  · simp only [fdc, hg] at h
    exact Except.noConfusion h
  · simp only [fdc, hg, Except.ok.injEq, Prod.mk.injEq] at h
    obtain ⟨hp, -⟩ := h
    subst hp
    intro x hx
    rw [List.mem_map] at hx
    obtain ⟨r, hr, rfl⟩ := hx
    rw [List.mem_reverse, rankdata, List.mem_map] at hr
    obtain ⟨v, hv, rfl⟩ := hr
    set L := (List.insertionSort (· ≤ ·)
      (dailyAverages (dropna (filterWindow b e col)))).map (fun w => w / n) with hL
    have heq1 : 1 ≤ (L.filter (fun w => w == v)).length :=
      List.length_pos_of_mem (List.mem_filter.mpr ⟨hv, by simp⟩)
    have hsum : (L.filter (fun w => w < v)).length + (L.filter (fun w => w == v)).length ≤
        L.length := by
      apply length_filter_add_length_filter_le
      intro a ⟨ha1, ha2⟩
      rw [decide_eq_true_iff] at ha1
      rw [beq_iff_eq] at ha2
      subst ha2
      exact lt_irrefl a ha1
    have hq1 : (1:ℚ) ≤ ((L.filter (fun w => w == v)).length : ℚ) := by
      exact_mod_cast heq1
    have hq2 : ((L.filter (fun w => w < v)).length : ℚ) +
        ((L.filter (fun w => w == v)).length : ℚ) ≤ (L.length : ℚ) := by
      exact_mod_cast hsum
    have hq0 : (0:ℚ) ≤ ((L.filter (fun w => w < v)).length : ℚ) := Nat.cast_nonneg _
    have hN1 : (0:ℚ) < (L.length : ℚ) + 1 := by positivity
    constructor
    · apply div_pos _ hN1
      linarith
    · rw [div_lt_one hN1]
      linarith

/-- C8 witness: the first probability returned on the two-row table,
2/3, lies strictly between 0 and 1. -/
theorem fdc_prob_in_unit_interval_witness : 0 < (2:ℚ)/3 ∧ (2:ℚ)/3 < 1 :=
  fdc_prob_in_unit_interval t2 "S" 1900 2020 1 _ _ fdc_t2_eval ((2:ℚ)/3) (by simp)

/-- C9: the call never mutates the caller's table (every pandas frame it
touches is a local copy), so the orchestrator's three sequential calls
over one table return exactly the three isolated results and hand the
table back unchanged. -/
theorem fdc_no_mutation (t : Table) (s : String) (b e : Nat) (n : ℚ) :
    fdcSt t s b e n = (fdc t s b e n, t) ∧
    get_plot_for_layer_feature t s =
      ((fdc t s 1900 2020 1, fdc t s 1900 1970 1, fdc t s 1970 2020 1), t) :=
  ⟨rfl, rfl⟩

/-- C10: permuting the rows of the table leaves the output unchanged:
aggregation groups by day-of-year (sum and count are order-free) and the
aggregated means are sorted before ranking. -/
theorem fdc_row_order_invariant (t u : Table) (site : String) (b e : Nat) (n : ℚ)
    (hcols : t.columns = u.columns) (hrows : t.rows.Perm u.rows) :
    fdc t site b e n = fdc u site b e n := by
  rcases hf : t.columns.findIdx? (fun c => c == site) with _ | i
  · have hg1 : getColumn t site = none := by
      simp [getColumn, hf]
    have hg2 : getColumn u site = none := by
      simp [getColumn, ← hcols, hf]
    simp [fdc, hg1, hg2]
  · have hg1 : getColumn t site =
        some (t.rows.map (fun r => (r.1, (r.2[i]?).join))) := by
      simp [getColumn, hf]
    have hg2 : getColumn u site =
        some (u.rows.map (fun r => (r.1, (r.2[i]?).join))) := by
      simp [getColumn, ← hcols, hf]
    simp only [fdc, hg1, hg2]
    have hcolp : (t.rows.map (fun r => (r.1, (r.2[i]?).join))).Perm
        (u.rows.map (fun r => (r.1, (r.2[i]?).join))) := hrows.map _
    have hdp : (dropna (filterWindow b e
        (t.rows.map (fun r => (r.1, (r.2[i]?).join))))).Perm
        (dropna (filterWindow b e
        (u.rows.map (fun r => (r.1, (r.2[i]?).join))))) :=
      (hcolp.filter _).filterMap _
    rw [dailyAverages_perm _ _ hdp]

/-- C10 witness: swapping the two rows of the two-row table leaves the
output of `fdc` unchanged. -/
theorem fdc_row_order_invariant_witness :
    fdc t2 "S" 1900 2020 1 = fdc t2swap "S" 1900 2020 1 :=
  fdc_row_order_invariant t2 t2swap "S" 1900 2020 1 rfl (by decide)
